import Mathlib

/-!
Verification of the archive-gmail mailbox synchronization engine.

The Go sources embedded here:
- `internal/services/gmailService/gmail_service.go`: `ListMailboxes`,
  `MailboxDir`, `MessagePath`, `ProcessMailbox` (SELECT retry loop, one-shot
  UID scan, per-message download loop) and `authenticateOAuth2`.
- `main.go` (chunked engine variant): the chunked UID scan of
  `processMailbox` and the worker-dispatch loop of `main`.
- `main.go` (sequential engine variant): `processMailbox` with the
  huge-mailbox skip.
- `cmd/archive-gmail/main.go`: the credential validation, mailbox listing
  and allow-list filter of `runBackup`.
- `internal/utils/pathUtils.go`: `Exists`, `EnsureDir`.

Modelling conventions: the file system is the list of file paths present on
disk; `os.Stat` success is list membership and `os.WriteFile` appends (the
write itself is modelled as succeeding).  IMAP traffic is modelled by its
observable content: the status returned by each SELECT attempt, the list of
UIDs the mailbox holds (a UID-range fetch delivers the ones inside the
requested range), and a per-UID success flag for single-message body
fetches (folding together fetch errors, timeouts, nil messages, nil bodies
and read errors, all of which make the Go loop `continue`).
-/

/-- The fields of `imap.MailboxStatus` that the engine reads after SELECT. -/
structure MailboxStatus where
  messages : Nat
  uidNext : Nat
deriving Repr, DecidableEq

/-- The fields of `config.Config` that the engine reads. -/
structure ModelConfig where
  email : String
  password : String
  clientID : String
  clientSecret : String
  backupDir : String
  dryRun : Bool
  foldersOnly : List String
deriving Repr, DecidableEq

/-- `strings.ReplaceAll(box, "/", "_")`: pattern and replacement are single
characters, so the replacement is exactly a character-wise map. -/
def sanitizeBoxName (box : String) : String :=
  String.mk (box.data.map (fun c => if c = '/' then '_' else c))

/-- `MailboxDir`: `filepath.Join(base, strings.ReplaceAll(box, "/", "_"))`. -/
def mailboxDir (base box : String) : String :=
  base ++ "/" ++ sanitizeBoxName box

/-- `MessagePath`: `filepath.Join(MailboxDir(base, box), fmt.Sprintf("%d.eml", msgID))`. -/
def messagePath (base box : String) (uid : Nat) : String :=
  mailboxDir base box ++ "/" ++ toString uid ++ ".eml"

/-- `utils.Exists`: `os.Stat` succeeds exactly when the path is on disk. -/
def pathExists (files : List String) (p : String) : Bool :=
  files.contains p

/-- Observable behaviour of the IMAP server for one mailbox:
the result of the SELECT command per attempt number (`none` = error),
the UIDs the mailbox holds (as delivered by UID-range fetches), and
whether the single-message body fetch of a UID succeeds end-to-end. -/
structure MailboxEnv where
  select : Nat → Option MailboxStatus
  serverUIDs : List Nat
  fetchOk : Nat → Bool

/-- Result of the SELECT retry loop: the final status, the seconds slept
between attempts, and the number of SELECT commands issued. -/
structure SelectResult where
  status : Option MailboxStatus
  sleeps : List Nat
  attempts : Nat
deriving Repr

/-- The SELECT retry loop of `processMailbox` / `ProcessMailbox`, iterating
from attempt `retry` with `rem = 3 - retry` iterations left (structural
fuel): `for retry := 0; retry < 3; retry++ { Select; if ok break; if retry <
2 { time.Sleep((retry+1) * time.Second) } }`. -/
def selectRetryFrom (select : Nat → Option MailboxStatus) : Nat → Nat → SelectResult
  | _, 0 => { status := none, sleeps := [], attempts := 0 }
  | retry, rem + 1 =>
    match select retry with
    | some st => { status := some st, sleeps := [], attempts := 1 }
    | none =>
      let rest := selectRetryFrom select (retry + 1) rem
      { status := rest.status,
        sleeps := (if retry < 2 then [retry + 1] else []) ++ rest.sleeps,
        attempts := rest.attempts + 1 }

/-- The full SELECT retry loop: three attempts starting at `retry = 0`. -/
def selectRetry (select : Nat → Option MailboxStatus) : SelectResult :=
  selectRetryFrom select 0 3

/-- A UID-range fetch (`UidFetch(seqset, FetchUid)`): the server delivers the
mailbox UIDs lying inside the requested closed range. -/
def rangeDelivered (server : List Nat) (lo hi : Nat) : List Nat :=
  server.filter (fun u => decide (lo ≤ u) && decide (u ≤ hi))

/-- The scan receive loop of `ProcessMailbox`: for every UID delivered on the
channel, append it to `missingUIDs` when no file exists at its message path. -/
def scanLoop (files : List String) (base box : String) : List Nat → List Nat → List Nat
  | [], missing => missing
  | uid :: rest, missing =>
    if pathExists files (messagePath base box uid) then
      scanLoop files base box rest missing
    else
      scanLoop files base box rest (missing ++ [uid])

/-- State threaded through the download loop: files on disk, the shared
download counter, and the UIDs for which a single-message fetch was issued. -/
structure DownloadState where
  files : List String
  downloaded : Nat
  fetched : List Nat
deriving Repr

/-- The download loop of `ProcessMailbox`: for each missing UID a
single-message peek fetch is issued; on success, unless `dryRun`, the body is
written to the message path and the shared counter is incremented; every
failure mode just moves on to the next UID. -/
def downloadLoop (fetchOk : Nat → Bool) (dryRun : Bool) (base box : String) :
    List Nat → DownloadState → DownloadState
  | [], st => st
  | uid :: rest, st =>
    let st1 : DownloadState := { st with fetched := st.fetched ++ [uid] }
    if fetchOk uid then
      if dryRun then
        downloadLoop fetchOk dryRun base box rest st1
      else
        downloadLoop fetchOk dryRun base box rest
          { files := st1.files ++ [messagePath base box uid],
            downloaded := st1.downloaded + 1,
            fetched := st1.fetched }
    else
      downloadLoop fetchOk dryRun base box rest st1

/-- Everything observable about one `ProcessMailbox` call. -/
structure ProcessResult where
  files : List String
  dirs : List String
  downloaded : Nat
  sleeps : List Nat
  attempts : Nat
  scanIssued : Bool
  missing : List Nat
  fetched : List Nat
  skipped : Bool
deriving Repr

/-- `ProcessMailbox` (gmail_service.go, one-shot scan): SELECT with retry;
skip when it failed, returned nothing, or the mailbox reports zero messages;
`EnsureDir` (a no-op in dry-run); one UID fetch of the closed range
`[1, uidNext-1]` collecting UIDs with no local file; then the download loop. -/
def processMailboxSvc (env : MailboxEnv) (cfg : ModelConfig) (box : String)
    (files dirs : List String) (downloaded : Nat) : ProcessResult :=
  let sel := selectRetry env.select
  match sel.status with
  | none =>
    { files, dirs, downloaded, sleeps := sel.sleeps, attempts := sel.attempts,
      scanIssued := false, missing := [], fetched := [], skipped := true }
  | some st =>
    if st.messages = 0 then
      { files, dirs, downloaded, sleeps := sel.sleeps, attempts := sel.attempts,
        scanIssued := false, missing := [], fetched := [], skipped := true }
    else
      let dirs2 := if cfg.dryRun then dirs else dirs ++ [mailboxDir cfg.backupDir box]
      let missing :=
        scanLoop files cfg.backupDir box
          (rangeDelivered env.serverUIDs 1 (st.uidNext - 1)) []
      let dl := downloadLoop env.fetchOk cfg.dryRun cfg.backupDir box missing
        { files, downloaded, fetched := [] }
      { files := dl.files, dirs := dirs2, downloaded := dl.downloaded,
        sleeps := sel.sleeps, attempts := sel.attempts, scanIssued := true,
        missing, fetched := dl.fetched, skipped := false }

/-! ### Basic lemmas about the scan and download loops -/

theorem scanLoop_eq_append_filter (files : List String) (base box : String) :
    ∀ (uids acc : List Nat),
      scanLoop files base box uids acc =
        acc ++ uids.filter (fun u => !pathExists files (messagePath base box u)) := by
  intro uids
  induction uids with
  | nil => intro acc; simp [scanLoop]
  | cons uid rest ih =>
    intro acc
    by_cases h : pathExists files (messagePath base box uid)
    · simp [scanLoop, h, ih]
    · simp only [Bool.not_eq_true] at h
      simp [scanLoop, h, ih]

theorem mem_scanLoop_nil (files : List String) (base box : String) (uids : List Nat) (u : Nat) :
    u ∈ scanLoop files base box uids [] ↔
      u ∈ uids ∧ pathExists files (messagePath base box u) = false := by
  rw [scanLoop_eq_append_filter]
  simp [List.mem_filter]

theorem pathExists_iff_mem (files : List String) (p : String) :
    pathExists files p = true ↔ p ∈ files := by
  simp [pathExists]

/-- C1: for every mailbox whose SELECT succeeds with a nonzero message count,
the UID scan returns exactly the UIDs in the closed range `[1, uidNext-1]`
that the server reports and for which no file exists at the local path keyed
by mailbox and uid; when the server delivers UIDs in strictly ascending order
the result is ascending as well. -/
theorem scan_returns_missing_uids (env : MailboxEnv) (cfg : ModelConfig)
    (box : String) (files dirs : List String) (downloaded : Nat)
    (st : MailboxStatus)
    (hsel : (selectRetry env.select).status = some st)
    (hmsg : st.messages ≠ 0) :
    (∀ u, u ∈ (processMailboxSvc env cfg box files dirs downloaded).missing ↔
      (u ∈ env.serverUIDs ∧ 1 ≤ u ∧ u ≤ st.uidNext - 1 ∧
        pathExists files (messagePath cfg.backupDir box u) = false)) ∧
    (env.serverUIDs.Pairwise (· < ·) →
      (processMailboxSvc env cfg box files dirs downloaded).missing.Pairwise (· < ·)) := by
  have hmissing : (processMailboxSvc env cfg box files dirs downloaded).missing =
      scanLoop files cfg.backupDir box
        (rangeDelivered env.serverUIDs 1 (st.uidNext - 1)) [] := by
    simp only [processMailboxSvc, hsel, hmsg, if_false]
  constructor
  · intro u
    rw [hmissing, mem_scanLoop_nil]
    unfold rangeDelivered
    simp only [List.mem_filter, Bool.and_eq_true, decide_eq_true_eq]
    tauto
  · intro hsorted
    rw [hmissing, scanLoop_eq_append_filter]
    simp only [List.nil_append]
    exact ((hsorted.filter _).filter _)

/-- Witness for C1 at the spec's example: server UIDs `{1, 3, 7}` inside
`[1, uidNext-1]` with only UID 1 present on disk; the scan returns `{3, 7}`
in ascending order. -/
theorem scan_returns_missing_uids_witness :
    (processMailboxSvc
        { select := fun _ => some { messages := 3, uidNext := 8 },
          serverUIDs := [1, 3, 7], fetchOk := fun _ => true }
        { email := "e", password := "p", clientID := "", clientSecret := "",
          backupDir := "base", dryRun := false, foldersOnly := [] }
        "INBOX" [messagePath "base" "INBOX" 1] [] 0).missing = [3, 7] ∧
    (∀ u, u ∈ (processMailboxSvc
        { select := fun _ => some { messages := 3, uidNext := 8 },
          serverUIDs := [1, 3, 7], fetchOk := fun _ => true }
        { email := "e", password := "p", clientID := "", clientSecret := "",
          backupDir := "base", dryRun := false, foldersOnly := [] }
        "INBOX" [messagePath "base" "INBOX" 1] [] 0).missing ↔
      (u ∈ [1, 3, 7] ∧ 1 ≤ u ∧ u ≤ 7 ∧
        pathExists [messagePath "base" "INBOX" 1] (messagePath "base" "INBOX" u) = false)) := by
  refine ⟨by decide, ?_⟩
  exact (scan_returns_missing_uids _ _ "INBOX" _ [] 0 { messages := 3, uidNext := 8 }
    (by rfl) (by decide)).1

/-! ### Unfolding lemmas for `processMailboxSvc` -/

theorem processMailboxSvc_skip_of_select_failed (env : MailboxEnv) (cfg : ModelConfig)
    (box : String) (files dirs : List String) (d0 : Nat)
    (hsel : (selectRetry env.select).status = none) :
    processMailboxSvc env cfg box files dirs d0 =
      { files := files, dirs := dirs, downloaded := d0,
        sleeps := (selectRetry env.select).sleeps,
        attempts := (selectRetry env.select).attempts,
        scanIssued := false, missing := [], fetched := [], skipped := true } := by
  simp only [processMailboxSvc, hsel]

theorem processMailboxSvc_skip_of_zero_messages (env : MailboxEnv) (cfg : ModelConfig)
    (box : String) (files dirs : List String) (d0 : Nat) (st : MailboxStatus)
    (hsel : (selectRetry env.select).status = some st)
    (hmsg : st.messages = 0) :
    processMailboxSvc env cfg box files dirs d0 =
      { files := files, dirs := dirs, downloaded := d0,
        sleeps := (selectRetry env.select).sleeps,
        attempts := (selectRetry env.select).attempts,
        scanIssued := false, missing := [], fetched := [], skipped := true } := by
  simp only [processMailboxSvc, hsel, hmsg, if_true]

theorem processMailboxSvc_success (env : MailboxEnv) (cfg : ModelConfig)
    (box : String) (files dirs : List String) (d0 : Nat) (st : MailboxStatus)
    (hsel : (selectRetry env.select).status = some st)
    (hmsg : st.messages ≠ 0) :
    processMailboxSvc env cfg box files dirs d0 =
      { files := (downloadLoop env.fetchOk cfg.dryRun cfg.backupDir box
          (scanLoop files cfg.backupDir box
            (rangeDelivered env.serverUIDs 1 (st.uidNext - 1)) [])
          { files := files, downloaded := d0, fetched := [] }).files,
        dirs := if cfg.dryRun then dirs else dirs ++ [mailboxDir cfg.backupDir box],
        downloaded := (downloadLoop env.fetchOk cfg.dryRun cfg.backupDir box
          (scanLoop files cfg.backupDir box
            (rangeDelivered env.serverUIDs 1 (st.uidNext - 1)) [])
          { files := files, downloaded := d0, fetched := [] }).downloaded,
        sleeps := (selectRetry env.select).sleeps,
        attempts := (selectRetry env.select).attempts,
        scanIssued := true,
        missing := scanLoop files cfg.backupDir box
          (rangeDelivered env.serverUIDs 1 (st.uidNext - 1)) [],
        fetched := (downloadLoop env.fetchOk cfg.dryRun cfg.backupDir box
          (scanLoop files cfg.backupDir box
            (rangeDelivered env.serverUIDs 1 (st.uidNext - 1)) [])
          { files := files, downloaded := d0, fetched := [] }).fetched,
        skipped := false } := by
  simp only [processMailboxSvc, hsel, hmsg, if_false]

/-! ### Download loop lemmas -/

theorem downloadLoop_all_ok (fetchOk : Nat → Bool) (base box : String) :
    ∀ (uids : List Nat) (st : DownloadState),
      (∀ u ∈ uids, fetchOk u = true) →
      downloadLoop fetchOk false base box uids st =
        { files := st.files ++ uids.map (messagePath base box),
          downloaded := st.downloaded + uids.length,
          fetched := st.fetched ++ uids } := by
  intro uids
  induction uids with
  | nil => intro st _; simp [downloadLoop]
  | cons uid rest ih =>
    intro st h
    have huid : fetchOk uid = true := h uid (by simp)
    have hrest : ∀ u ∈ rest, fetchOk u = true := fun u hu => h u (by simp [hu])
    rw [downloadLoop, huid]
    simp only [if_true, Bool.false_eq_true, ite_false]
    rw [ih _ hrest]
    simp only [DownloadState.mk.injEq, List.append_assoc, List.singleton_append,
      List.map_cons, List.length_cons]
    refine ⟨trivial, by omega, trivial⟩

theorem downloadLoop_dryRun (fetchOk : Nat → Bool) (base box : String) :
    ∀ (uids : List Nat) (st : DownloadState),
      downloadLoop fetchOk true base box uids st =
        { files := st.files, downloaded := st.downloaded,
          fetched := st.fetched ++ uids } := by
  intro uids
  induction uids with
  | nil => intro st; simp [downloadLoop]
  | cons uid rest ih =>
    intro st
    by_cases h : fetchOk uid = true
    · simp [downloadLoop, h, ih]
    · simp only [Bool.not_eq_true] at h
      simp [downloadLoop, h, ih]

theorem downloadLoop_fetched (fetchOk : Nat → Bool) (dryRun : Bool) (base box : String) :
    ∀ (uids : List Nat) (st : DownloadState),
      (downloadLoop fetchOk dryRun base box uids st).fetched = st.fetched ++ uids := by
  intro uids
  induction uids with
  | nil => intro st; simp [downloadLoop]
  | cons uid rest ih =>
    intro st
    simp only [downloadLoop]
    by_cases h : fetchOk uid = true
    · rw [if_pos h]
      by_cases hd : dryRun = true
      · rw [if_pos hd, ih]; simp
      · rw [if_neg hd, ih]; simp
    · rw [if_neg h, ih]; simp

/-- C2: running the scan+download cycle twice against an unchanged mailbox is
idempotent: when the first run stores every missing UID (dry-run off, every
single-message fetch succeeding), each stored UID has a file at its
mailbox/uid path afterwards, so the second run scans no UID as missing,
issues no single-message fetch, writes nothing and leaves the download
counter unchanged. -/
theorem second_run_downloads_nothing (env : MailboxEnv) (cfg : ModelConfig)
    (box : String) (files dirs : List String) (d0 : Nat) (st : MailboxStatus)
    (hsel : (selectRetry env.select).status = some st)
    (hmsg : st.messages ≠ 0)
    (hdry : cfg.dryRun = false)
    (hfetch : ∀ u ∈ (processMailboxSvc env cfg box files dirs d0).missing,
      env.fetchOk u = true) :
    (∀ u ∈ (processMailboxSvc env cfg box files dirs d0).missing,
        pathExists (processMailboxSvc env cfg box files dirs d0).files
          (messagePath cfg.backupDir box u) = true) ∧
    (processMailboxSvc env cfg box
      (processMailboxSvc env cfg box files dirs d0).files
      (processMailboxSvc env cfg box files dirs d0).dirs
      (processMailboxSvc env cfg box files dirs d0).downloaded).missing = [] ∧
    (processMailboxSvc env cfg box
      (processMailboxSvc env cfg box files dirs d0).files
      (processMailboxSvc env cfg box files dirs d0).dirs
      (processMailboxSvc env cfg box files dirs d0).downloaded).fetched = [] ∧
    (processMailboxSvc env cfg box
      (processMailboxSvc env cfg box files dirs d0).files
      (processMailboxSvc env cfg box files dirs d0).dirs
      (processMailboxSvc env cfg box files dirs d0).downloaded).downloaded =
      (processMailboxSvc env cfg box files dirs d0).downloaded ∧
    (processMailboxSvc env cfg box
      (processMailboxSvc env cfg box files dirs d0).files
      (processMailboxSvc env cfg box files dirs d0).dirs
      (processMailboxSvc env cfg box files dirs d0).downloaded).files =
      (processMailboxSvc env cfg box files dirs d0).files := by
  have h1 := processMailboxSvc_success env cfg box files dirs d0 st hsel hmsg
  set delivered := rangeDelivered env.serverUIDs 1 (st.uidNext - 1) with hdel
  set missing1 := scanLoop files cfg.backupDir box delivered [] with hm1
  have hmiss : (processMailboxSvc env cfg box files dirs d0).missing = missing1 := by
    rw [h1]
  have hfetch1 : ∀ u ∈ missing1, env.fetchOk u = true := by
    rw [hmiss] at hfetch; exact hfetch
  have hdl := downloadLoop_all_ok env.fetchOk cfg.backupDir box missing1
    { files := files, downloaded := d0, fetched := [] } hfetch1
  have hfiles : (processMailboxSvc env cfg box files dirs d0).files =
      files ++ missing1.map (messagePath cfg.backupDir box) := by
    rw [h1]
    simp only [hdry, hdl]
  -- every UID the server delivers has a file after the first run
  have hall : ∀ u ∈ delivered,
      pathExists (processMailboxSvc env cfg box files dirs d0).files
        (messagePath cfg.backupDir box u) = true := by
    intro u hu
    rw [hfiles, pathExists_iff_mem, List.mem_append]
    by_cases hp : pathExists files (messagePath cfg.backupDir box u) = true
    · exact Or.inl ((pathExists_iff_mem files _).mp hp)
    · right
      simp only [Bool.not_eq_true] at hp
      have : u ∈ missing1 := by
        rw [hm1, mem_scanLoop_nil]; exact ⟨hu, hp⟩
      exact List.mem_map_of_mem _ this
  have hstored : ∀ u ∈ (processMailboxSvc env cfg box files dirs d0).missing,
      pathExists (processMailboxSvc env cfg box files dirs d0).files
        (messagePath cfg.backupDir box u) = true := by
    intro u hu
    rw [hmiss, hm1, mem_scanLoop_nil] at hu
    exact hall u hu.1
  -- the second run finds nothing missing
  have h2 := processMailboxSvc_success env cfg box
    (processMailboxSvc env cfg box files dirs d0).files
    (processMailboxSvc env cfg box files dirs d0).dirs
    (processMailboxSvc env cfg box files dirs d0).downloaded st hsel hmsg
  have hmiss2 : scanLoop (processMailboxSvc env cfg box files dirs d0).files
      cfg.backupDir box delivered [] = [] := by
    rw [scanLoop_eq_append_filter]
    simp only [List.nil_append, List.filter_eq_nil_iff]
    intro u hu
    simp [hall u hu]
  refine ⟨hstored, ?_, ?_, ?_, ?_⟩ <;>
    rw [h2] <;>
    simp only [← hdel, hmiss2] <;>
    simp [downloadLoop]

/-- Witness for C2: a mailbox with server UIDs `{1, 2}`, nothing on disk,
all fetches succeeding; the first run stores both and the second run finds
nothing missing. -/
theorem second_run_downloads_nothing_witness :
    (processMailboxSvc
      { select := fun _ => some { messages := 2, uidNext := 3 },
        serverUIDs := [1, 2], fetchOk := fun _ => true }
      { email := "e", password := "p", clientID := "", clientSecret := "",
        backupDir := "base", dryRun := false, foldersOnly := [] }
      "INBOX"
      (processMailboxSvc
        { select := fun _ => some { messages := 2, uidNext := 3 },
          serverUIDs := [1, 2], fetchOk := fun _ => true }
        { email := "e", password := "p", clientID := "", clientSecret := "",
          backupDir := "base", dryRun := false, foldersOnly := [] }
        "INBOX" [] [] 0).files
      (processMailboxSvc
        { select := fun _ => some { messages := 2, uidNext := 3 },
          serverUIDs := [1, 2], fetchOk := fun _ => true }
        { email := "e", password := "p", clientID := "", clientSecret := "",
          backupDir := "base", dryRun := false, foldersOnly := [] }
        "INBOX" [] [] 0).dirs
      (processMailboxSvc
        { select := fun _ => some { messages := 2, uidNext := 3 },
          serverUIDs := [1, 2], fetchOk := fun _ => true }
        { email := "e", password := "p", clientID := "", clientSecret := "",
          backupDir := "base", dryRun := false, foldersOnly := [] }
        "INBOX" [] [] 0).downloaded).missing = [] := by
  exact (second_run_downloads_nothing
    { select := fun _ => some { messages := 2, uidNext := 3 },
      serverUIDs := [1, 2], fetchOk := fun _ => true }
    { email := "e", password := "p", clientID := "", clientSecret := "",
      backupDir := "base", dryRun := false, foldersOnly := [] }
    "INBOX" [] [] 0 { messages := 2, uidNext := 3 }
    (by rfl) (by decide) (by rfl) (by intro u hu; rfl)).2.1

/-- C5: with dry-run on, a mailbox run writes no message file, creates no
directory and leaves the shared download counter unchanged, while the scan
result and the per-UID fetch protocol exchanges are exactly those of the
non-dry run started from the same state. -/
theorem dry_run_writes_nothing (env : MailboxEnv) (cfg : ModelConfig)
    (box : String) (files dirs : List String) (d0 : Nat) :
    (processMailboxSvc env { cfg with dryRun := true } box files dirs d0).files = files ∧
    (processMailboxSvc env { cfg with dryRun := true } box files dirs d0).dirs = dirs ∧
    (processMailboxSvc env { cfg with dryRun := true } box files dirs d0).downloaded = d0 ∧
    (processMailboxSvc env { cfg with dryRun := true } box files dirs d0).missing =
      (processMailboxSvc env { cfg with dryRun := false } box files dirs d0).missing ∧
    (processMailboxSvc env { cfg with dryRun := true } box files dirs d0).fetched =
      (processMailboxSvc env { cfg with dryRun := false } box files dirs d0).fetched ∧
    (processMailboxSvc env { cfg with dryRun := true } box files dirs d0).scanIssued =
      (processMailboxSvc env { cfg with dryRun := false } box files dirs d0).scanIssued := by
  cases hsel : (selectRetry env.select).status with
  | none =>
    rw [processMailboxSvc_skip_of_select_failed env _ box files dirs d0 hsel,
      processMailboxSvc_skip_of_select_failed env _ box files dirs d0 hsel]
    simp
  | some st =>
    by_cases hmsg : st.messages = 0
    · rw [processMailboxSvc_skip_of_zero_messages env _ box files dirs d0 st hsel hmsg,
        processMailboxSvc_skip_of_zero_messages env _ box files dirs d0 st hsel hmsg]
      simp
    · rw [processMailboxSvc_success env _ box files dirs d0 st hsel hmsg,
        processMailboxSvc_success env _ box files dirs d0 st hsel hmsg]
      simp only [downloadLoop_dryRun, downloadLoop_fetched, if_true]
      simp

/-! ### Select retry case analysis -/

theorem selectRetry_first (select : Nat → Option MailboxStatus) (st : MailboxStatus)
    (h0 : select 0 = some st) :
    selectRetry select = { status := some st, sleeps := [], attempts := 1 } := by
  simp [selectRetry, selectRetryFrom, h0]

theorem selectRetry_second (select : Nat → Option MailboxStatus) (st : MailboxStatus)
    (h0 : select 0 = none) (h1 : select 1 = some st) :
    selectRetry select = { status := some st, sleeps := [1], attempts := 2 } := by
  simp [selectRetry, selectRetryFrom, h0, h1]

theorem selectRetry_third (select : Nat → Option MailboxStatus) (st : MailboxStatus)
    (h0 : select 0 = none) (h1 : select 1 = none) (h2 : select 2 = some st) :
    selectRetry select = { status := some st, sleeps := [1, 2], attempts := 3 } := by
  simp [selectRetry, selectRetryFrom, h0, h1, h2]

theorem selectRetry_all_failed (select : Nat → Option MailboxStatus)
    (h0 : select 0 = none) (h1 : select 1 = none) (h2 : select 2 = none) :
    selectRetry select = { status := none, sleeps := [1, 2], attempts := 3 } := by
  simp [selectRetry, selectRetryFrom, h0, h1, h2]

/-! ### Scheduler: mailbox listing, allow-list filter, worker loop -/

/-- `imap.NoSelectAttr`. -/
def noSelectAttr : String := "\\Noselect"

/-- The fields of `imap.MailboxInfo` that `ListMailboxes` reads. -/
structure MailboxInfo where
  name : String
  attributes : List String
deriving Repr, DecidableEq

/-- `ListMailboxes`: collect the names of delivered entries whose attributes
do not contain `\Noselect`, returned together with the error of the listing
command (entries received before an error stay in the returned list). -/
def listMailboxes (infos : List MailboxInfo) (listErr : Option String) :
    List String × Option String :=
  ((infos.filter (fun m => !m.attributes.contains noSelectAttr)).map
    (fun m => m.name), listErr)

/-- Run state threaded through the scheduler: disk state, the shared counter
and, as protocol instrumentation, the mailbox name of every SELECT issued. -/
structure SchedState where
  files : List String
  dirs : List String
  downloaded : Nat
  selects : List String
deriving Repr, DecidableEq

/-- One worker invocation (`gmailSvc.ProcessMailbox`) threading the run
state; each SELECT attempt is logged against the mailbox name. -/
def runWorker (env : MailboxEnv) (cfg : ModelConfig) (box : String)
    (st : SchedState) : SchedState :=
  let r := processMailboxSvc env cfg box st.files st.dirs st.downloaded
  { files := r.files, dirs := r.dirs, downloaded := r.downloaded,
    selects := st.selects ++ List.replicate r.attempts box }

/-- The scheduler's mailbox loop (`runBackup` / `main`): a mailbox is skipped
with `continue` when the allow-list is non-empty and does not contain it;
`envOf` gives the server behaviour per mailbox. -/
def runLoop (envOf : String → MailboxEnv) (cfg : ModelConfig) :
    List String → SchedState → SchedState
  | [], st => st
  | box :: rest, st =>
    if cfg.foldersOnly.length != 0 && !cfg.foldersOnly.contains box then
      runLoop envOf cfg rest st
    else
      runLoop envOf cfg rest (runWorker (envOf box) cfg box st)

/-- The mailboxes the loop dispatches a worker for (the ones not skipped by
the `continue` condition). -/
def dispatched (foldersOnly boxes : List String) : List String :=
  boxes.filter (fun b => !(foldersOnly.length != 0 && !foldersOnly.contains b))

/-- `runBackup` (cmd/archive-gmail/main.go): fatal when email is empty, or
when the OAuth2 pair is incomplete and the password is empty; connect; list
mailboxes (fatal on error); then the worker loop over the listed mailboxes.
`none` models a fatal exit (`logrus.Fatal`). -/
def runBackup (cfg : ModelConfig) (connectOk : Bool)
    (infos : List MailboxInfo) (listErr : Option String)
    (envOf : String → MailboxEnv) (files0 : List String) : Option SchedState :=
  if cfg.email == "" then none
  else if !(cfg.clientID != "" && cfg.clientSecret != "") && cfg.password == "" then none
  else if !connectOk then none
  else
    match listMailboxes infos listErr with
    | (_, some _) => none
    | (boxes, none) =>
      some (runLoop envOf cfg boxes
        { files := files0, dirs := [], downloaded := 0, selects := [] })

/-! ### Scheduler lemmas -/

theorem runWorker_selects (env : MailboxEnv) (cfg : ModelConfig) (box : String)
    (st : SchedState) (sl : List String) :
    runWorker env cfg box { st with selects := sl } =
      { runWorker env cfg box st with
        selects := sl ++ List.replicate
          (processMailboxSvc env cfg box st.files st.dirs st.downloaded).attempts box } :=
  rfl

theorem runLoop_ignores_selects (envOf : String → MailboxEnv) (cfg : ModelConfig) :
    ∀ (boxes : List String) (st : SchedState) (sl : List String),
      ((runLoop envOf cfg boxes { st with selects := sl }).files =
        (runLoop envOf cfg boxes st).files) ∧
      ((runLoop envOf cfg boxes { st with selects := sl }).dirs =
        (runLoop envOf cfg boxes st).dirs) ∧
      ((runLoop envOf cfg boxes { st with selects := sl }).downloaded =
        (runLoop envOf cfg boxes st).downloaded) := by
  intro boxes
  induction boxes with
  | nil => intro st sl; simp [runLoop]
  | cons box rest ih =>
    intro st sl
    simp only [runLoop]
    by_cases hc : (cfg.foldersOnly.length != 0 && !cfg.foldersOnly.contains box) = true
    · rw [if_pos hc, if_pos hc]; exact ih st sl
    · rw [if_neg hc, if_neg hc, runWorker_selects]
      exact ih (runWorker (envOf box) cfg box st) _

theorem processMailboxSvc_dirs (env : MailboxEnv) (cfg : ModelConfig) (box : String)
    (files dirs : List String) (d0 : Nat) :
    (processMailboxSvc env cfg box files dirs d0).dirs = dirs ∨
    (processMailboxSvc env cfg box files dirs d0).dirs =
      dirs ++ [mailboxDir cfg.backupDir box] := by
  cases hsel : (selectRetry env.select).status with
  | none => left; rw [processMailboxSvc_skip_of_select_failed env cfg box files dirs d0 hsel]
  | some st =>
    by_cases hmsg : st.messages = 0
    · left; rw [processMailboxSvc_skip_of_zero_messages env cfg box files dirs d0 st hsel hmsg]
    · rw [processMailboxSvc_success env cfg box files dirs d0 st hsel hmsg]
      by_cases hd : cfg.dryRun = true
      · left; simp [hd]
      · right; simp [hd]

theorem allowListPass_iff (foldersOnly : List String) (b : String) :
    (foldersOnly.length != 0 && !foldersOnly.contains b) = false ↔
      (foldersOnly = [] ∨ b ∈ foldersOnly) := by
  cases h1 : foldersOnly.length != 0 <;> cases h2 : foldersOnly.contains b <;>
    simp_all [List.length_eq_zero]

theorem mem_dispatched (foldersOnly boxes : List String) (b : String) :
    b ∈ dispatched foldersOnly boxes ↔
      b ∈ boxes ∧ (foldersOnly = [] ∨ b ∈ foldersOnly) := by
  simp only [dispatched, List.mem_filter, Bool.not_eq_true', allowListPass_iff]

theorem runLoop_selects_subset (envOf : String → MailboxEnv) (cfg : ModelConfig) :
    ∀ (boxes : List String) (st : SchedState) (b : String),
      b ∈ (runLoop envOf cfg boxes st).selects →
      b ∈ st.selects ∨ b ∈ dispatched cfg.foldersOnly boxes := by
  intro boxes
  induction boxes with
  | nil => intro st b hb; left; simpa [runLoop] using hb
  | cons box rest ih =>
    intro st b hb
    simp only [runLoop] at hb
    by_cases hc : (cfg.foldersOnly.length != 0 && !cfg.foldersOnly.contains box) = true
    · rw [if_pos hc] at hb
      rcases ih st b hb with h | h
      · exact Or.inl h
      · right
        rw [mem_dispatched] at h ⊢
        exact ⟨List.mem_cons_of_mem _ h.1, h.2⟩
    · rw [if_neg hc] at hb
      have hcf : (cfg.foldersOnly.length != 0 && !cfg.foldersOnly.contains box) = false :=
        Bool.eq_false_iff.mpr hc
      rcases ih _ b hb with h | h
      · simp only [runWorker, List.mem_append] at h
        rcases h with h | h
        · exact Or.inl h
        · right
          have hbb : b = box := List.eq_of_mem_replicate h
          subst hbb
          rw [mem_dispatched]
          exact ⟨List.mem_cons_self _ _, (allowListPass_iff _ _).mp hcf⟩
      · right
        rw [mem_dispatched] at h ⊢
        exact ⟨List.mem_cons_of_mem _ h.1, h.2⟩

theorem runLoop_dirs_subset (envOf : String → MailboxEnv) (cfg : ModelConfig) :
    ∀ (boxes : List String) (st : SchedState) (d : String),
      d ∈ (runLoop envOf cfg boxes st).dirs →
      d ∈ st.dirs ∨ ∃ b, b ∈ dispatched cfg.foldersOnly boxes ∧
        d = mailboxDir cfg.backupDir b := by
  intro boxes
  induction boxes with
  | nil => intro st d hd; left; simpa [runLoop] using hd
  | cons box rest ih =>
    intro st d hd
    simp only [runLoop] at hd
    by_cases hc : (cfg.foldersOnly.length != 0 && !cfg.foldersOnly.contains box) = true
    · rw [if_pos hc] at hd
      rcases ih st d hd with h | ⟨b, hb, hdb⟩
      · exact Or.inl h
      · right
        rw [mem_dispatched] at hb
        exact ⟨b, (mem_dispatched _ _ _).mpr ⟨List.mem_cons_of_mem _ hb.1, hb.2⟩, hdb⟩
    · rw [if_neg hc] at hd
      have hcf : (cfg.foldersOnly.length != 0 && !cfg.foldersOnly.contains box) = false :=
        Bool.eq_false_iff.mpr hc
      rcases ih _ d hd with h | ⟨b, hb, hdb⟩
      · simp only [runWorker] at h
        rcases processMailboxSvc_dirs (envOf box) cfg box st.files st.dirs st.downloaded with
          hcase | hcase
        · rw [hcase] at h
          exact Or.inl h
        · rw [hcase, List.mem_append] at h
          rcases h with h | h
          · exact Or.inl h
          · right
            refine ⟨box, (mem_dispatched _ _ _).mpr
              ⟨List.mem_cons_self _ _, (allowListPass_iff _ _).mp hcf⟩, by simpa using h⟩
      · right
        rw [mem_dispatched] at hb
        exact ⟨b, (mem_dispatched _ _ _).mpr ⟨List.mem_cons_of_mem _ hb.1, hb.2⟩, hdb⟩

/-- C4: for every mailbox the SELECT step is attempted at most 3 times,
sleeping 1s after the first failure and 2s after the second; when all three
attempts fail, or the mailbox reports zero messages, the worker returns
without scanning or downloading and the scheduler continues with the
remaining mailboxes unaffected (no run failure); when an attempt succeeds on
a mailbox with messages, the scan proceeds. -/
theorem select_retry_backoff_and_skip (env : MailboxEnv) (cfg : ModelConfig)
    (box : String) (files dirs : List String) (d0 : Nat) :
    ((selectRetry env.select).attempts ≤ 3) ∧
    ((∃ st, env.select 0 = some st) → (selectRetry env.select).sleeps = []) ∧
    (env.select 0 = none → (∃ st, env.select 1 = some st) →
      (selectRetry env.select).sleeps = [1]) ∧
    (env.select 0 = none → env.select 1 = none →
      (selectRetry env.select).sleeps = [1, 2]) ∧
    ((∀ i, i < 3 → env.select i = none) →
      ((processMailboxSvc env cfg box files dirs d0).skipped = true ∧
       (processMailboxSvc env cfg box files dirs d0).files = files ∧
       (processMailboxSvc env cfg box files dirs d0).dirs = dirs ∧
       (processMailboxSvc env cfg box files dirs d0).downloaded = d0 ∧
       (processMailboxSvc env cfg box files dirs d0).scanIssued = false ∧
       (processMailboxSvc env cfg box files dirs d0).fetched = [])) ∧
    (∀ st, (selectRetry env.select).status = some st → st.messages = 0 →
      ((processMailboxSvc env cfg box files dirs d0).skipped = true ∧
       (processMailboxSvc env cfg box files dirs d0).scanIssued = false)) ∧
    (∀ st, (selectRetry env.select).status = some st → st.messages ≠ 0 →
      (processMailboxSvc env cfg box files dirs d0).scanIssued = true) ∧
    (∀ (envOf : String → MailboxEnv) (rest : List String) (st : SchedState),
      envOf box = env → (∀ i, i < 3 → env.select i = none) →
      ((runLoop envOf cfg (box :: rest) st).files = (runLoop envOf cfg rest st).files ∧
       (runLoop envOf cfg (box :: rest) st).dirs = (runLoop envOf cfg rest st).dirs ∧
       (runLoop envOf cfg (box :: rest) st).downloaded =
         (runLoop envOf cfg rest st).downloaded)) := by
  refine ⟨?_, ?_, ?_, ?_, ?_, ?_, ?_, ?_⟩
  · cases h0 : env.select 0 with
    | some st => rw [selectRetry_first env.select st h0]; simp
    | none =>
      cases h1 : env.select 1 with
      | some st => rw [selectRetry_second env.select st h0 h1]; simp
      | none =>
        cases h2 : env.select 2 with
        | some st => rw [selectRetry_third env.select st h0 h1 h2]
        | none => rw [selectRetry_all_failed env.select h0 h1 h2]
  · rintro ⟨st, h0⟩
    rw [selectRetry_first env.select st h0]
  · rintro h0 ⟨st, h1⟩
    rw [selectRetry_second env.select st h0 h1]
  · intro h0 h1
    cases h2 : env.select 2 with
    | some st => rw [selectRetry_third env.select st h0 h1 h2]
    | none => rw [selectRetry_all_failed env.select h0 h1 h2]
  · intro hall
    have hsel : (selectRetry env.select).status = none := by
      rw [selectRetry_all_failed env.select (hall 0 (by omega)) (hall 1 (by omega))
        (hall 2 (by omega))]
    rw [processMailboxSvc_skip_of_select_failed env cfg box files dirs d0 hsel]
    exact ⟨rfl, rfl, rfl, rfl, rfl, rfl⟩
  · intro st hsel hmsg
    rw [processMailboxSvc_skip_of_zero_messages env cfg box files dirs d0 st hsel hmsg]
    exact ⟨rfl, rfl⟩
  · intro st hsel hmsg
    rw [processMailboxSvc_success env cfg box files dirs d0 st hsel hmsg]
  · intro envOf rest st henv hall
    have hsel : (selectRetry (envOf box).select).status = none := by
      rw [henv, selectRetry_all_failed env.select (hall 0 (by omega)) (hall 1 (by omega))
        (hall 2 (by omega))]
    simp only [runLoop]
    by_cases hc : (cfg.foldersOnly.length != 0 && !cfg.foldersOnly.contains box) = true
    · rw [if_pos hc]
      exact ⟨rfl, rfl, rfl⟩
    · rw [if_neg hc]
      have hworker : runWorker (envOf box) cfg box st =
          { st with
            selects := st.selects ++ List.replicate (selectRetry (envOf box).select).attempts box } := by
        unfold runWorker
        rw [processMailboxSvc_skip_of_select_failed (envOf box) cfg box st.files st.dirs
          st.downloaded hsel]
      rw [hworker]
      exact runLoop_ignores_selects envOf cfg rest st _

/-- Witness for C4: a mailbox whose SELECT fails on every attempt; the
worker sleeps 1s then 2s, issues three attempts, and skips with the state
untouched. -/
theorem select_retry_backoff_and_skip_witness :
    (selectRetry (fun _ => (none : Option MailboxStatus))).sleeps = [1, 2] ∧
    (processMailboxSvc
      { select := fun _ => none, serverUIDs := [5], fetchOk := fun _ => true }
      { email := "e", password := "p", clientID := "", clientSecret := "",
        backupDir := "base", dryRun := false, foldersOnly := [] }
      "INBOX" [] [] 0).skipped = true := by
  have h := select_retry_backoff_and_skip
    { select := fun _ => none, serverUIDs := [5], fetchOk := fun _ => true }
    { email := "e", password := "p", clientID := "", clientSecret := "",
      backupDir := "base", dryRun := false, foldersOnly := [] }
    "INBOX" [] [] 0
  exact ⟨h.2.2.2.1 rfl rfl, (h.2.2.2.2.1 (fun i _ => rfl)).1⟩

/-- C6: the scheduler dispatches a worker for exactly the listed mailboxes
passing the allow-list (all of them when the allow-list is empty); a mailbox
outside a non-empty allow-list gets no worker, no SELECT command, and every
directory created during the run belongs to a dispatched mailbox. -/
theorem allow_list_filtering (envOf : String → MailboxEnv) (cfg : ModelConfig)
    (boxes : List String) (files0 : List String) :
    (∀ b, b ∈ dispatched cfg.foldersOnly boxes ↔
      (b ∈ boxes ∧ (cfg.foldersOnly = [] ∨ b ∈ cfg.foldersOnly))) ∧
    (∀ b, b ∈ (runLoop envOf cfg boxes
        { files := files0, dirs := [], downloaded := 0, selects := [] }).selects →
      b ∈ dispatched cfg.foldersOnly boxes) ∧
    (∀ d, d ∈ (runLoop envOf cfg boxes
        { files := files0, dirs := [], downloaded := 0, selects := [] }).dirs →
      ∃ b, b ∈ dispatched cfg.foldersOnly boxes ∧ d = mailboxDir cfg.backupDir b) := by
  refine ⟨fun b => mem_dispatched cfg.foldersOnly boxes b, ?_, ?_⟩
  · intro b hb
    rcases runLoop_selects_subset envOf cfg boxes _ b hb with h | h
    · simp at h
    · exact h
  · intro d hd
    rcases runLoop_dirs_subset envOf cfg boxes _ d hd with h | h
    · simp at h
    · exact h

/-- Witness for C6 at the spec's example: mailboxes INBOX, Drafts, Sent with
allow-list containing only INBOX; exactly INBOX is dispatched and only INBOX
is selected. -/
theorem allow_list_filtering_witness :
    dispatched ["INBOX"] ["INBOX", "Drafts", "Sent"] = ["INBOX"] ∧
    ("Drafts" ∈ dispatched ["INBOX"] ["INBOX", "Drafts", "Sent"] ↔
      ("Drafts" ∈ ["INBOX", "Drafts", "Sent"] ∧
        (["INBOX"] = ([] : List String) ∨ "Drafts" ∈ ["INBOX"]))) := by
  refine ⟨by decide, ?_⟩
  exact (allow_list_filtering (fun _ =>
      { select := fun _ => none, serverUIDs := [], fetchOk := fun _ => false })
    { email := "e", password := "p", clientID := "", clientSecret := "",
      backupDir := "base", dryRun := false, foldersOnly := ["INBOX"] }
    ["INBOX", "Drafts", "Sent"] []).1 "Drafts"

/-- C8: when the listing command errors, `runBackup` aborts fatally before
dispatching any worker, so the partial mailbox list received before the
error is discarded; conversely, every non-fatal run came from an error-free
listing — a silently-truncated list is never acted upon. -/
theorem listing_error_aborts_run (cfg : ModelConfig) (connectOk : Bool)
    (infos : List MailboxInfo) (e : String) (envOf : String → MailboxEnv)
    (files0 : List String) :
    runBackup cfg connectOk infos (some e) envOf files0 = none ∧
    (∀ listErr st, runBackup cfg connectOk infos listErr envOf files0 = some st →
      listErr = none) := by
  have hfatal : runBackup cfg connectOk infos (some e) envOf files0 = none := by
    unfold runBackup
    split_ifs <;> rfl
  refine ⟨hfatal, ?_⟩
  intro listErr st h
  cases listErr with
  | none => rfl
  | some e2 =>
    have : runBackup cfg connectOk infos (some e2) envOf files0 = none := by
      unfold runBackup
      split_ifs <;> rfl
    rw [this] at h
    exact Option.noConfusion h

/-- Witness for C8: a run whose listing errors is fatal even though two
mailboxes were already delivered. -/
theorem listing_error_aborts_run_witness :
    runBackup
      { email := "e", password := "p", clientID := "", clientSecret := "",
        backupDir := "base", dryRun := false, foldersOnly := [] }
      true
      [{ name := "INBOX", attributes := [] }, { name := "Sent", attributes := [] }]
      (some "connection reset") (fun _ =>
        { select := fun _ => none, serverUIDs := [], fetchOk := fun _ => false })
      [] = none := by
  exact (listing_error_aborts_run _ true _ "connection reset" _ []).1

/-! ### Credential validation (C7) -/

/-- The validation `runBackup` performs before connecting: email must be
non-empty, and unless the OAuth2 pair is complete the password must be
non-empty (`useOAuth2 := ClientID != "" && ClientSecret != ""`). -/
def credentialsValid (cfg : ModelConfig) : Bool :=
  !(cfg.email == "") &&
    !(!(cfg.clientID != "" && cfg.clientSecret != "") && cfg.password == "")

/-- The credential rule as the spec words it: email non-empty, and exactly
one of the password or the complete clientID/clientSecret pair non-empty. -/
def exactlyOneCredential (cfg : ModelConfig) : Bool :=
  (cfg.email != "") &&
    ((cfg.password != "") != (cfg.clientID != "" && cfg.clientSecret != ""))

/-- A configuration with both credential variants set at once. -/
def bothVariantsCfg : ModelConfig :=
  { email := "user@example.com", password := "app-password",
    clientID := "client-id", clientSecret := "client-secret",
    backupDir := "backups", dryRun := false, foldersOnly := [] }

/-- C7 counterexample: with both credential variants configured the spec's
exactly-one rule is violated, yet `runBackup` does not fail fast —
validation passes and the run proceeds (shown to completion on an empty
listing). -/
theorem both_variants_not_rejected :
    exactlyOneCredential bothVariantsCfg = false ∧
    credentialsValid bothVariantsCfg = true ∧
    runBackup bothVariantsCfg true [] none
      (fun _ => { select := fun _ => none, serverUIDs := [], fetchOk := fun _ => false })
      [] = some { files := [], dirs := [], downloaded := 0, selects := [] } := by
  refine ⟨by decide, by decide, by rfl⟩

/-- C7 amended: before connecting, `runBackup` validates that email is
non-empty and that at least one credential variant is usable — a non-empty
password, or the complete clientID/clientSecret pair (both variants may be
configured at once) — and exactly when this fails it exits fatally, issuing
no protocol commands. -/
theorem credential_validation_amended (cfg : ModelConfig) :
    (credentialsValid cfg = true ↔
      (cfg.email ≠ "" ∧
        (cfg.password ≠ "" ∨ (cfg.clientID ≠ "" ∧ cfg.clientSecret ≠ "")))) ∧
    (credentialsValid cfg = false →
      ∀ (connectOk : Bool) (infos : List MailboxInfo) (listErr : Option String)
        (envOf : String → MailboxEnv) (files0 : List String),
        runBackup cfg connectOk infos listErr envOf files0 = none) := by
  constructor
  · unfold credentialsValid
    by_cases he : cfg.email = "" <;> by_cases hp : cfg.password = "" <;>
      by_cases hi : cfg.clientID = "" <;> by_cases hs : cfg.clientSecret = "" <;>
        simp [beq_iff_eq, he, hp, hi, hs]
  · intro hinv connectOk infos listErr envOf files0
    unfold runBackup
    by_cases h1 : (cfg.email == "") = true
    · rw [if_pos h1]
    · rw [if_neg h1]
      by_cases h2 :
          (!(cfg.clientID != "" && cfg.clientSecret != "") && cfg.password == "") = true
      · rw [if_pos h2]
      · exfalso
        have hc1 : (cfg.email == "") = false := Bool.eq_false_iff.mpr h1
        have hc2 : (!(cfg.clientID != "" && cfg.clientSecret != "") &&
            cfg.password == "") = false := Bool.eq_false_iff.mpr h2
        unfold credentialsValid at hinv
        rw [hc1, hc2] at hinv
        simp at hinv

/-- A configuration missing the email address. -/
def noEmailCfg : ModelConfig :=
  { email := "", password := "p", clientID := "", clientSecret := "",
    backupDir := "b", dryRun := false, foldersOnly := [] }

/-- Witness for C7 amended: a configuration with no email fails validation
and the run is fatal. -/
theorem credential_validation_amended_witness :
    credentialsValid noEmailCfg = false ∧
    runBackup noEmailCfg true [] none
      (fun _ => { select := fun _ => none, serverUIDs := [], fetchOk := fun _ => false })
      [] = none := by
  refine ⟨by decide, ?_⟩
  exact (credential_validation_amended _).2 (by decide) true [] none _ []

/-! ### Chunked UID scan (main.go, chunked engine variant) (C3) -/

/-- The chunk loop of the chunked `processMailbox` (main.go):
`for chunkStart := 1; chunkStart < uidNext; chunkStart += chunkSize` with
`chunkEnd := chunkStart + chunkSize - 1` capped at `uidNext`
(`if chunkEnd > uidNext { chunkEnd = uidNext }`); each chunk is fetched as a
UID range and scanned into the shared `missingUIDs` accumulator.  The first
argument of the recursion is structural fuel bounding the remaining
iterations; the wrapper passes `uidNext`, sufficient because every iteration
advances `chunkStart` by `chunkSize ≥ 1`. -/
def chunkedScanAux (files : List String) (base box : String) (server : List Nat)
    (uidNext chunkSize : Nat) : Nat → Nat → List Nat → List Nat
  | 0, _, acc => acc
  | fuel + 1, chunkStart, acc =>
    if chunkStart < uidNext then
      chunkedScanAux files base box server uidNext chunkSize fuel (chunkStart + chunkSize)
        (scanLoop files base box
          (rangeDelivered server chunkStart
            (if chunkStart + chunkSize - 1 > uidNext then uidNext
             else chunkStart + chunkSize - 1)) acc)
    else acc

/-- The chunked UID scan, started at `chunkStart = 1` with empty
accumulator. -/
def chunkedScan (files : List String) (base box : String) (server : List Nat)
    (uidNext chunkSize : Nat) : List Nat :=
  chunkedScanAux files base box server uidNext chunkSize uidNext 1 []

/-- The unchunked scan of `ProcessMailbox`: one UID fetch of the closed
range `[1, uidNext-1]`. -/
def oneShotScan (files : List String) (base box : String) (server : List Nat)
    (uidNext : Nat) : List Nat :=
  scanLoop files base box (rangeDelivered server 1 (uidNext - 1)) []

theorem chunkedScanAux_subset (files : List String) (base box : String)
    (server : List Nat) (uidNext chunkSize : Nat) :
    ∀ (fuel chunkStart : Nat) (acc : List Nat) (u : Nat),
      u ∈ chunkedScanAux files base box server uidNext chunkSize fuel chunkStart acc →
      u ∈ acc ∨ (u ∈ server ∧
        pathExists files (messagePath base box u) = false ∧
        chunkStart ≤ u ∧ u ≤ uidNext) := by
  intro fuel
  induction fuel with
  | zero => intro chunkStart acc u hu; exact Or.inl hu
  | succ fuel ih =>
    intro chunkStart acc u hu
    simp only [chunkedScanAux] at hu
    by_cases hlt : chunkStart < uidNext
    · rw [if_pos hlt] at hu
      rcases ih _ _ u hu with h | ⟨hs, hpe, hge, hle⟩
      · rw [scanLoop_eq_append_filter, List.mem_append] at h
        rcases h with h | h
        · exact Or.inl h
        · right
          rw [List.mem_filter] at h
          obtain ⟨hd, hpe⟩ := h
          unfold rangeDelivered at hd
          rw [List.mem_filter] at hd
          obtain ⟨hsv, hrange⟩ := hd
          simp only [Bool.and_eq_true, decide_eq_true_eq] at hrange
          refine ⟨hsv, by simpa using hpe, hrange.1, ?_⟩
          rcases hrange with ⟨h1, h2⟩
          by_cases hcap : chunkStart + chunkSize - 1 > uidNext
          · rw [if_pos hcap] at h2; exact h2
          · rw [if_neg hcap] at h2; omega
      · exact Or.inr ⟨hs, hpe, by omega, hle⟩
    · rw [if_neg hlt] at hu
      exact Or.inl hu

theorem chunkedScanAux_mono (files : List String) (base box : String)
    (server : List Nat) (uidNext chunkSize : Nat) :
    ∀ (fuel chunkStart : Nat) (acc : List Nat) (u : Nat), u ∈ acc →
      u ∈ chunkedScanAux files base box server uidNext chunkSize fuel chunkStart acc := by
  intro fuel
  induction fuel with
  | zero => intro _ _ _ h; exact h
  | succ fuel ih =>
    intro chunkStart acc u hu
    simp only [chunkedScanAux]
    by_cases hlt : chunkStart < uidNext
    · rw [if_pos hlt]
      apply ih
      rw [scanLoop_eq_append_filter, List.mem_append]
      exact Or.inl hu
    · rw [if_neg hlt]; exact hu

theorem chunkedScanAux_complete (files : List String) (base box : String)
    (server : List Nat) (uidNext chunkSize : Nat) (hk : 0 < chunkSize) :
    ∀ (fuel chunkStart : Nat) (acc : List Nat) (u : Nat),
      uidNext ≤ chunkStart + fuel →
      u ∈ server →
      pathExists files (messagePath base box u) = false →
      chunkStart ≤ u → u < uidNext →
      u ∈ chunkedScanAux files base box server uidNext chunkSize fuel chunkStart acc := by
  intro fuel
  induction fuel with
  | zero =>
    intro chunkStart acc u hfuel hs hp hge hlt
    exact absurd hlt (by omega)
  | succ fuel ih =>
    intro chunkStart acc u hfuel hs hp hge hlt
    have hcslt : chunkStart < uidNext := by omega
    simp only [chunkedScanAux]
    rw [if_pos hcslt]
    by_cases hin : u ≤ (if chunkStart + chunkSize - 1 > uidNext then uidNext
        else chunkStart + chunkSize - 1)
    · apply chunkedScanAux_mono
      rw [scanLoop_eq_append_filter, List.mem_append]
      right
      rw [List.mem_filter]
      refine ⟨?_, by simp [hp]⟩
      unfold rangeDelivered
      rw [List.mem_filter]
      refine ⟨hs, ?_⟩
      simp only [Bool.and_eq_true, decide_eq_true_eq]
      exact ⟨hge, hin⟩
    · apply ih
      · omega
      · exact hs
      · exact hp
      · by_cases hcap : chunkStart + chunkSize - 1 > uidNext
        · rw [if_pos hcap] at hin; omega
        · rw [if_neg hcap] at hin; omega
      · exact hlt

/-- C3: for every mailbox state (uidNext, server UIDs, files on disk) in
which the server UIDs respect the `uidNext` watermark (each at least 1 and
below `uidNext`), and every positive chunk size, the chunked scan yields
exactly the same missing-UID result set as the unchunked scan of the closed
range `[1, uidNext-1]`. -/
theorem chunked_scan_same_result_set (files : List String) (base box : String)
    (server : List Nat) (uidNext chunkSize : Nat)
    (hk : 0 < chunkSize)
    (hserver : ∀ u ∈ server, 1 ≤ u ∧ u < uidNext) :
    ∀ u, u ∈ chunkedScan files base box server uidNext chunkSize ↔
      u ∈ oneShotScan files base box server uidNext := by
  intro u
  constructor
  · intro hu
    unfold chunkedScan at hu
    rcases chunkedScanAux_subset files base box server uidNext chunkSize
      uidNext 1 [] u hu with h | ⟨hs, hp, hge, hle⟩
    · simp at h
    · unfold oneShotScan
      rw [mem_scanLoop_nil]
      refine ⟨?_, hp⟩
      unfold rangeDelivered
      rw [List.mem_filter]
      have hu2 := hserver u hs
      refine ⟨hs, ?_⟩
      simp only [Bool.and_eq_true, decide_eq_true_eq]
      omega
  · intro hu
    unfold oneShotScan at hu
    rw [mem_scanLoop_nil] at hu
    obtain ⟨hd, hp⟩ := hu
    unfold rangeDelivered at hd
    rw [List.mem_filter] at hd
    obtain ⟨hs, hrange⟩ := hd
    simp only [Bool.and_eq_true, decide_eq_true_eq] at hrange
    unfold chunkedScan
    exact chunkedScanAux_complete files base box server uidNext chunkSize hk
      uidNext 1 [] u (by omega) hs hp hrange.1 (hserver u hs).2

/-- Witness for C3: server UIDs {1, 3, 7, 12} with uidNext 13, chunk size 5,
the file for UID 3 on disk; the chunked and unchunked scans agree and both
return [1, 7, 12]. -/
theorem chunked_scan_same_result_set_witness :
    (∀ u, u ∈ chunkedScan [messagePath "base" "INBOX" 3] "base" "INBOX"
        [1, 3, 7, 12] 13 5 ↔
      u ∈ oneShotScan [messagePath "base" "INBOX" 3] "base" "INBOX" [1, 3, 7, 12] 13) ∧
    chunkedScan [messagePath "base" "INBOX" 3] "base" "INBOX" [1, 3, 7, 12] 13 5 =
      [1, 7, 12] ∧
    oneShotScan [messagePath "base" "INBOX" 3] "base" "INBOX" [1, 3, 7, 12] 13 =
      [1, 7, 12] := by
  refine ⟨chunked_scan_same_result_set _ "base" "INBOX" _ 13 5 (by decide) (by decide),
    by decide, by decide⟩

/-! ### Sequential engine variant: huge-mailbox skip (C10) -/

/-- `processMailbox` of the sequential engine variant (main.go): the same
SELECT retry and skip conditions as the service variant, plus an extra skip
for mailboxes reporting more than 50000 messages
(`if mboxStatus.Messages > 50000`), applied before the directory is ensured
and before any UID scan; then a one-shot scan and the download loop. -/
def processMailboxSeq (env : MailboxEnv) (cfg : ModelConfig) (box : String)
    (files dirs : List String) (downloaded : Nat) : ProcessResult :=
  let sel := selectRetry env.select
  match sel.status with
  | none =>
    { files, dirs, downloaded, sleeps := sel.sleeps, attempts := sel.attempts,
      scanIssued := false, missing := [], fetched := [], skipped := true }
  | some st =>
    if st.messages = 0 then
      { files, dirs, downloaded, sleeps := sel.sleeps, attempts := sel.attempts,
        scanIssued := false, missing := [], fetched := [], skipped := true }
    else if 50000 < st.messages then
      { files, dirs, downloaded, sleeps := sel.sleeps, attempts := sel.attempts,
        scanIssued := false, missing := [], fetched := [], skipped := true }
    else
      let dirs2 := if cfg.dryRun then dirs else dirs ++ [mailboxDir cfg.backupDir box]
      let missing :=
        scanLoop files cfg.backupDir box
          (rangeDelivered env.serverUIDs 1 (st.uidNext - 1)) []
      let dl := downloadLoop env.fetchOk cfg.dryRun cfg.backupDir box missing
        { files, downloaded, fetched := [] }
      { files := dl.files, dirs := dirs2, downloaded := dl.downloaded,
        sleeps := sel.sleeps, attempts := sel.attempts, scanIssued := true,
        missing, fetched := dl.fetched, skipped := false }

/-- C10: in the sequential engine variant, every mailbox whose SELECT
succeeds reporting more than 50000 messages is skipped entirely before any
scan or download — no directory, no scan, no fetch, no file and no counter
change, regardless of how many of its messages are missing locally. -/
theorem huge_mailbox_skipped (env : MailboxEnv) (cfg : ModelConfig) (box : String)
    (files dirs : List String) (d0 : Nat) (st : MailboxStatus)
    (hsel : (selectRetry env.select).status = some st)
    (hbig : 50000 < st.messages) :
    (processMailboxSeq env cfg box files dirs d0).skipped = true ∧
    (processMailboxSeq env cfg box files dirs d0).files = files ∧
    (processMailboxSeq env cfg box files dirs d0).dirs = dirs ∧
    (processMailboxSeq env cfg box files dirs d0).downloaded = d0 ∧
    (processMailboxSeq env cfg box files dirs d0).scanIssued = false ∧
    (processMailboxSeq env cfg box files dirs d0).fetched = [] ∧
    (processMailboxSeq env cfg box files dirs d0).missing = [] := by
  have hmsg : st.messages ≠ 0 := by omega
  simp [processMailboxSeq, hsel, hmsg, hbig]

/-- Witness for C10: a mailbox reporting 50001 messages with one UID missing
locally is still skipped with nothing archived. -/
theorem huge_mailbox_skipped_witness :
    (processMailboxSeq
      { select := fun _ => some { messages := 50001, uidNext := 50002 },
        serverUIDs := [1], fetchOk := fun _ => true }
      { email := "e", password := "p", clientID := "", clientSecret := "",
        backupDir := "base", dryRun := false, foldersOnly := [] }
      "INBOX" [] [] 0).skipped = true ∧
    (processMailboxSeq
      { select := fun _ => some { messages := 50001, uidNext := 50002 },
        serverUIDs := [1], fetchOk := fun _ => true }
      { email := "e", password := "p", clientID := "", clientSecret := "",
        backupDir := "base", dryRun := false, foldersOnly := [] }
      "INBOX" [] [] 0).files = [] := by
  have h := huge_mailbox_skipped
    { select := fun _ => some { messages := 50001, uidNext := 50002 },
      serverUIDs := [1], fetchOk := fun _ => true }
    { email := "e", password := "p", clientID := "", clientSecret := "",
      backupDir := "base", dryRun := false, foldersOnly := [] }
    "INBOX" [] [] 0 { messages := 50001, uidNext := 50002 } (by rfl) (by decide)
  exact ⟨h.1, h.2.1⟩

/-! ### OAuth2 credential provider (C9) -/

/-- The token fields the provider reads (`golang.org/x/oauth2.Token`):
access token, refresh token and expiry timestamp (0 = no expiry, matching
`Expiry.IsZero()`). -/
structure OToken where
  accessToken : String
  refreshToken : String
  expiry : Nat
deriving Repr, DecidableEq

/-- `oauth2.Token.Valid()`: non-nil is handled by `Option`; the access token
must be non-empty and the token not expired (a zero expiry never expires;
the library's 10-second early-expiry delta is immaterial here). -/
def tokenValid (tok : OToken) (now : Nat) : Bool :=
  tok.accessToken != "" && (tok.expiry == 0 || decide (now < tok.expiry))

/-- Events observable at the credential-provider boundary, in issue order. -/
inductive AuthEvent where
  | interactivePrompt
  | refreshRequest (refreshToken : String)
  | saveTokenFile (perm : Nat) (tok : OToken)
  | saslExchange (payload : String)
deriving Repr, DecidableEq

/-- `oauth2.Config.TokenSource(...).Token()`: return the held token while it
is valid, otherwise ask the refresh endpoint with the refresh token
(`none` models refresh failure). -/
def tokenSourceToken (tok : OToken) (now : Nat)
    (refreshEndpoint : String → Option OToken) : Option (OToken × List AuthEvent) :=
  if tokenValid tok now then some (tok, [])
  else
    match refreshEndpoint tok.refreshToken with
    | some t2 => some (t2, [AuthEvent.refreshRequest tok.refreshToken])
    | none => none

/-- The Gmail XOAUTH2 initial response built by `SASLOAuth2Client.Start`. -/
def xoauth2Payload (email accessToken : String) : String :=
  "user=" ++ email ++ "\x01auth=Bearer " ++ accessToken ++ "\x01\x01"

/-- `authenticateOAuth2` (gmail_service.go) as its event trace: load the
cached token, keeping it only when `Valid()`; otherwise run the interactive
authorization-code flow (`exchange` is the outcome of the code exchange,
`none` = failure) and save the exchanged token (mode 0600); then
authenticate: the `getAccessToken` callback invoked by the SASL `Start`
obtains a token from the TokenSource (refreshing only when the token held at
that point is no longer valid), saves it to the token file (mode 0600) and
sends the XOAUTH2 payload.  `none` models a fatal failure. -/
def authenticateOAuth2 (cached : Option OToken) (now : Nat)
    (exchange : Option OToken) (refreshEndpoint : String → Option OToken)
    (email : String) : Option (List AuthEvent) :=
  let token0 : Option OToken :=
    match cached with
    | some t => if tokenValid t now then some t else none
    | none => none
  let afterLogin : Option (OToken × List AuthEvent) :=
    match token0 with
    | some t => some (t, [])
    | none =>
      match exchange with
      | some t => some (t, [AuthEvent.interactivePrompt, AuthEvent.saveTokenFile 0o600 t])
      | none => none
  match afterLogin with
  | none => none
  | some (t, evs) =>
    match tokenSourceToken t now refreshEndpoint with
    | none => none
    | some (t2, evs2) =>
      some (evs ++ evs2 ++
        [AuthEvent.saveTokenFile 0o600 t2,
         AuthEvent.saslExchange (xoauth2Payload email t2.accessToken)])

/-- A cached token whose expiry (time 5) is in the past at `now = 100`, with
a non-empty refresh token. -/
def expiredCachedTok : OToken :=
  { accessToken := "old-access", refreshToken := "valid-refresh", expiry := 5 }

/-- The token a working refresh endpoint would return. -/
def refreshedTok : OToken :=
  { accessToken := "new-access", refreshToken := "valid-refresh", expiry := 4000 }

/-- The token the interactive code exchange returns. -/
def exchangedTok : OToken :=
  { accessToken := "exchanged-access", refreshToken := "new-refresh", expiry := 4000 }

/-- C9 divergence: with a cached token whose expiry is in the past and a
working refresh endpoint, `authenticateOAuth2` discards the cached token
(`t.Valid()` fails) and runs the interactive authorization-code flow — the
resulting trace contains the interactive prompt and no refresh request, so
no refreshed token is persisted before the authentication exchange, against
the claim (and the README's promise of automatic refresh). -/
theorem expired_cached_token_runs_interactive_login :
    authenticateOAuth2 (some expiredCachedTok) 100 (some exchangedTok)
        (fun _ => some refreshedTok) "user@example.com" =
      some [AuthEvent.interactivePrompt,
            AuthEvent.saveTokenFile 0o600 exchangedTok,
            AuthEvent.saveTokenFile 0o600 exchangedTok,
            AuthEvent.saslExchange (xoauth2Payload "user@example.com" "exchanged-access")] ∧
    (∀ rt, AuthEvent.refreshRequest rt ∉
      [AuthEvent.interactivePrompt,
       AuthEvent.saveTokenFile 0o600 exchangedTok,
       AuthEvent.saveTokenFile 0o600 exchangedTok,
       AuthEvent.saslExchange (xoauth2Payload "user@example.com" "exchanged-access")]) := by
  refine ⟨by decide, ?_⟩
  intro rt h
  simp at h
